import Mathlib

/-!
Verification of the RocketShoes cart state manager
(src/src/hooks/useCart.tsx).

The cart hook keeps an in-memory list of products, mirrors it into a
persistent key-value store under a fixed key, and exposes three
operations: addProduct, removeProduct and updateProductAmount.  We embed
the hook shallowly: the React state and the storage cell become an
explicit `AppState`, the HTTP calls and the storage write become an
oracle `Env` (a stock response, a catalog response, and whether the
storage write succeeds), and each operation becomes a pure function from
the old state to the new state paired with the list of toast messages it
emitted.
-/

/-- A cart entry.  The source's `Product` type (src/src/types.ts, not part
of the provided sources) is, per the spec, an integer `id`, opaque catalog
metadata (name, price, image url) and an integer `amount`. -/
structure CartItem where
  id : Int
  title : String
  price : Int
  image : String
  amount : Int
deriving DecidableEq

/-- Structured JSON values, the codomain of `JSON.stringify` viewed at the
value level (the textual layer of `JSON.stringify` / `JSON.parse` is the
JavaScript standard library, not code of this repository). -/
inductive Json where
  | num : Int → Json
  | str : String → Json
  | arr : List Json → Json
  | obj : List (String × Json) → Json

/-- Serialization of one cart item, following the field layout of
`Product`. -/
def encodeItem (p : CartItem) : Json :=
  Json.obj [("id", Json.num p.id), ("title", Json.str p.title),
    ("price", Json.num p.price), ("image", Json.str p.image),
    ("amount", Json.num p.amount)]

/-- Deserialization of one cart item. -/
def decodeItem : Json → Option CartItem
  | Json.obj [("id", Json.num i), ("title", Json.str t),
      ("price", Json.num pr), ("image", Json.str im),
      ("amount", Json.num a)] => some ⟨i, t, pr, im, a⟩
  | _ => none

/-- Serialization of the whole cart: `JSON.stringify(updatedCart)` at the
value level (a JSON array of item objects). -/
def encodeCart (cart : List CartItem) : Json :=
  Json.arr (cart.map encodeItem)

/-- Deserialization of a list of items, element by element. -/
def decodeItems : List Json → Option (List CartItem)
  | [] => some []
  | j :: rest =>
    match decodeItem j, decodeItems rest with
    | some p, some ps => some (p :: ps)
    | _, _ => none

/-- Deserialization of a whole cart, the value-level reading of
`JSON.parse(storagedCart)` as a `Product[]`. -/
def decodeCart : Json → Option (List CartItem)
  | Json.arr xs => decodeItems xs
  | _ => none

/-- The initializer of the `cart` state in `CartProvider`: read the fixed
key from the store; if a value is present parse it, otherwise start with
the empty cart. -/
def initialCart : Option Json → Option (List CartItem)
  | none => some []
  | some j => decodeCart j

/-- The observable state of the provider: the in-memory `cart` React
state and the value stored under the `@RocketShoes:cart` key (`none` when
the key is absent). -/
@[ext]
structure AppState where
  cart : List CartItem
  storage : Option Json

/-- Toast shown by the out-of-stock guard in `addProduct` and
`updateProductAmount`. -/
def msgOutOfStock : String := "Quantidade solicitada fora de estoque"

/-- Toast shown by the catch-all of `addProduct`. -/
def msgAddError : String := "Erro na adição do produto"

/-- Toast shown by the catch-all of `removeProduct`. -/
def msgRemoveError : String := "Erro na remoção do produto"

/-- Toast shown by the catch-all of `updateProductAmount`. -/
def msgUpdateError : String := "Erro na alteração de quantidade do produto"

/-- The external world one operation call runs against: the response of
`GET /stock/productId` (`none` models a rejected request), the response
of `GET /products/productId`, and whether `localStorage.setItem`
succeeds (`false` models a throwing write, e.g. quota exceeded).  Each
operation call carries its own `Env`, since the services are re-queried
on every call. -/
structure Env where
  stockOf : Int → Option Int
  productOf : Int → Option CartItem
  storageOk : Bool

/-- The expression `productExists ? productExists.amount : 0` over the
result of `updatedCart.find(product => product.id === productId)`. -/
def currentAmountOf (cart : List CartItem) (productId : Int) : Int :=
  match cart.find? (fun p => p.id == productId) with
  | some p => p.amount
  | none => 0

/-- Effect on the cart array of `productExists.amount = amount`: the found
element — the first one whose id matches — is mutated in place, every
other element is untouched. -/
def setAmountFirst : List CartItem → Int → Int → List CartItem
  | [], _, _ => []
  | p :: rest, productId, a =>
      if p.id == productId then { p with amount := a } :: rest
      else p :: setAmountFirst rest productId a

/-- The `addProduct` operation.  Mirrors the source step by step: copy the
cart, look the product up, fetch the stock (a rejection lands in the
catch-all), compute `amount = currentAmount + 1`, run the out-of-stock
guard, then either mutate the found item or fetch the catalog entry and
append `{...product.data, amount: 1}`, and finally `setCart` followed by
the storage write (a throwing write lands in the catch-all after
`setCart` has already committed). -/
def addProduct (env : Env) (s : AppState) (productId : Int) :
    AppState × List String :=
  match env.stockOf productId with
  | none => (s, [msgAddError])
  | some stockAmount =>
    let productExists := s.cart.find? (fun p => p.id == productId)
    let currentAmount : Int :=
      match productExists with
      | some p => p.amount
      | none => 0
    let amount := currentAmount + 1
    if stockAmount < amount then
      (s, [msgOutOfStock])
    else
      match productExists with
      | some _ =>
        let newCart := setAmountFirst s.cart productId amount
        if env.storageOk then
          ({ cart := newCart, storage := some (encodeCart newCart) }, [])
        else
          ({ cart := newCart, storage := s.storage }, [msgAddError])
      | none =>
        match env.productOf productId with
        | none => (s, [msgAddError])
        | some prod =>
          let newCart := s.cart ++ [{ prod with amount := 1 }]
          if env.storageOk then
            ({ cart := newCart, storage := some (encodeCart newCart) }, [])
          else
            ({ cart := newCart, storage := s.storage }, [msgAddError])

/-- The `removeProduct` operation: `findIndex`, and when the index is
at least zero `splice(index, 1)`, `setCart`, storage write; otherwise
`throw Error()`, landing in the catch-all. -/
def removeProduct (storageOk : Bool) (s : AppState) (productId : Int) :
    AppState × List String :=
  match s.cart.findIdx? (fun p => p.id == productId) with
  | some i =>
    let newCart := s.cart.eraseIdx i
    if storageOk then
      ({ cart := newCart, storage := some (encodeCart newCart) }, [])
    else
      ({ cart := newCart, storage := s.storage }, [msgRemoveError])
  | none => (s, [msgRemoveError])

/-- The `updateProductAmount` operation: silent early return when the
requested amount is non-positive, stock fetch, out-of-stock guard, then
mutate the found item and persist, or `throw Error()` into the catch-all
when the product is not in the cart. -/
def updateProductAmount (env : Env) (s : AppState) (productId amount : Int) :
    AppState × List String :=
  if amount ≤ 0 then (s, [])
  else
    match env.stockOf productId with
    | none => (s, [msgUpdateError])
    | some stockAmount =>
      if stockAmount < amount then
        (s, [msgOutOfStock])
      else
        match s.cart.find? (fun p => p.id == productId) with
        | some _ =>
          let newCart := setAmountFirst s.cart productId amount
          if env.storageOk then
            ({ cart := newCart, storage := some (encodeCart newCart) }, [])
          else
            ({ cart := newCart, storage := s.storage }, [msgUpdateError])
        | none => (s, [msgUpdateError])

/-- One user interaction with the provider, together with the world it
runs against (`removeProduct` performs no fetch, so only the storage
write outcome matters to it). -/
inductive Op where
  | add : Env → Int → Op
  | remove : Bool → Int → Op
  | update : Env → Int → Int → Op

/-- The state transition of one operation (the emitted toasts are
dropped). -/
def applyOp (s : AppState) : Op → AppState
  | Op.add env productId => (addProduct env s productId).1
  | Op.remove ok productId => (removeProduct ok s productId).1
  | Op.update env productId amount =>
      (updateProductAmount env s productId amount).1

/-- Run a sequence of operations from a state. -/
def runOps (s : AppState) : List Op → AppState
  | [] => s
  | op :: rest => runOps (applyOp s op) rest

/-- The cart data-model invariant: every present item has amount at least
one, and no two items share an id. -/
def CartInv (cart : List CartItem) : Prop :=
  (∀ p ∈ cart, 1 ≤ p.amount) ∧ (cart.map CartItem.id).Nodup

instance (cart : List CartItem) : Decidable (CartInv cart) := by
  unfold CartInv; infer_instance

/-- A catalog that answers `GET /products/productId` with the metadata of
that very product: the id field of the response is the requested id. -/
def EnvCatalogIds (env : Env) : Prop :=
  ∀ productId p, env.productOf productId = some p → p.id = productId

/-- Well-formedness of one operation: its catalog (used only by
`addProduct`) answers with matching ids. -/
def OpWf : Op → Prop
  | Op.add env _ => EnvCatalogIds env
  | Op.remove _ _ => True
  | Op.update _ _ _ => True

/-! Helper lemmas about the list operations the hook performs. -/

theorem find?_id_append (l1 : List CartItem) (p : CartItem) (l2 : List CartItem)
    (pid : Int) (h1 : ∀ q ∈ l1, q.id ≠ pid) (hp : p.id = pid) :
    (l1 ++ p :: l2).find? (fun q => q.id == pid) = some p := by
  induction l1 with
  | nil => simp [hp]
  | cons q rest ih =>
    have hq : q.id ≠ pid := h1 q (by simp)
    have ih2 := ih fun r hr => h1 r (List.mem_cons_of_mem _ hr)
    simp [hq, ih2]

theorem find?_id_eq_none (cart : List CartItem) (pid : Int)
    (h : ∀ q ∈ cart, q.id ≠ pid) :
    cart.find? (fun q => q.id == pid) = none := by
  rw [List.find?_eq_none]
  intro q hq
  simp [h q hq]

theorem setAmountFirst_append (l1 : List CartItem) (p : CartItem)
    (l2 : List CartItem) (pid a : Int) (h1 : ∀ q ∈ l1, q.id ≠ pid)
    (hp : p.id = pid) :
    setAmountFirst (l1 ++ p :: l2) pid a = l1 ++ { p with amount := a } :: l2 := by
  induction l1 with
  | nil => simp [setAmountFirst, hp]
  | cons q rest ih =>
    have hq : q.id ≠ pid := h1 q (by simp)
    have ih2 := ih fun r hr => h1 r (List.mem_cons_of_mem _ hr)
    simp [setAmountFirst, hq, ih2]

theorem findIdx?_id_append (l1 : List CartItem) (p : CartItem)
    (l2 : List CartItem) (pid : Int) (h1 : ∀ q ∈ l1, q.id ≠ pid)
    (hp : p.id = pid) (i : Nat) :
    (l1 ++ p :: l2).findIdx? (fun q => q.id == pid) i = some (i + l1.length) := by
  induction l1 generalizing i with
  | nil => simp [List.findIdx?_cons, hp]
  | cons q rest ih =>
    have hq : q.id ≠ pid := h1 q (by simp)
    simp only [List.cons_append, List.findIdx?_cons]
    rw [if_neg (by simp [hq])]
    rw [ih (fun r hr => h1 r (List.mem_cons_of_mem _ hr)) (i + 1)]
    simp only [List.length_cons]
    congr 1
    omega

theorem findIdx?_id_eq_none (cart : List CartItem) (pid : Int)
    (h : ∀ q ∈ cart, q.id ≠ pid) :
    cart.findIdx? (fun q => q.id == pid) = none := by
  rw [List.findIdx?_eq_none_iff]
  intro q hq
  simp [h q hq]

theorem eraseIdx_append_length (l1 : List CartItem) (p : CartItem)
    (l2 : List CartItem) :
    (l1 ++ p :: l2).eraseIdx l1.length = l1 ++ l2 := by
  induction l1 with
  | nil => simp
  | cons q rest ih => simp [List.eraseIdx_cons_succ, ih]

theorem setAmountFirst_self (cart : List CartItem) (pid : Int) (p : CartItem)
    (h : cart.find? (fun q => q.id == pid) = some p) :
    setAmountFirst cart pid p.amount = cart := by
  induction cart with
  | nil => simp at h
  | cons q rest ih =>
    by_cases hq : q.id = pid
    · rw [List.find?_cons_of_pos] at h
      · rw [Option.some.injEq] at h
        subst h
        obtain ⟨i, t, pr, im, a⟩ := q
        simp_all [setAmountFirst]
      · simp [hq]
    · rw [List.find?_cons_of_neg] at h
      · simp [setAmountFirst, hq, ih h]
      · simp [hq]

theorem find?_id_of_nodup_mem (cart : List CartItem) (p : CartItem)
    (hnd : (cart.map CartItem.id).Nodup) (hmem : p ∈ cart) :
    cart.find? (fun q => q.id == p.id) = some p := by
  induction cart with
  | nil => simp at hmem
  | cons q rest ih =>
    simp only [List.map_cons, List.nodup_cons] at hnd
    rcases List.mem_cons.mp hmem with h | h
    · subst h
      simp
    · by_cases hq : q.id = p.id
      · exfalso
        apply hnd.1
        rw [hq]
        exact List.mem_map_of_mem CartItem.id h
      · simp [hq, ih hnd.2 h]

theorem setAmountFirst_map_id (cart : List CartItem) (pid a : Int) :
    (setAmountFirst cart pid a).map CartItem.id = cart.map CartItem.id := by
  induction cart with
  | nil => rfl
  | cons q rest ih =>
    by_cases hq : (q.id == pid) = true
    · simp [setAmountFirst, hq]
    · simp [setAmountFirst, hq, ih]

theorem setAmountFirst_amount_le (cart : List CartItem) (pid a : Int)
    (hcart : ∀ p ∈ cart, 1 ≤ p.amount) (ha : 1 ≤ a) :
    ∀ q ∈ setAmountFirst cart pid a, 1 ≤ q.amount := by
  induction cart with
  | nil => simp [setAmountFirst]
  | cons p rest ih =>
    intro q hq
    by_cases hp : (p.id == pid) = true
    · simp only [setAmountFirst, if_pos hp] at hq
      rcases List.mem_cons.mp hq with h | h
      · subst h; exact ha
      · exact hcart q (List.mem_cons_of_mem _ h)
    · simp only [setAmountFirst, if_neg hp] at hq
      rcases List.mem_cons.mp hq with h | h
      · subst h; exact hcart q (by simp)
      · exact ih (fun r hr => hcart r (List.mem_cons_of_mem _ hr)) q h

/-! Serialization round trip. -/

theorem decodeItem_encodeItem (p : CartItem) :
    decodeItem (encodeItem p) = some p := rfl

theorem decodeItems_map_encodeItem (cart : List CartItem) :
    decodeItems (cart.map encodeItem) = some cart := by
  induction cart with
  | nil => rfl
  | cons p rest ih => simp [decodeItems, decodeItem_encodeItem, ih]

theorem decodeCart_encodeCart (cart : List CartItem) :
    decodeCart (encodeCart cart) = some cart := by
  simpa [decodeCart, encodeCart] using decodeItems_map_encodeItem cart

/-! Branch characterizations of the three operations. -/

theorem addProduct_stock_fail (env : Env) (s : AppState) (pid : Int)
    (h : env.stockOf pid = none) :
    addProduct env s pid = (s, [msgAddError]) := by
  simp [addProduct, h]

theorem addProduct_guard (env : Env) (s : AppState) (pid stockAmount : Int)
    (hstock : env.stockOf pid = some stockAmount)
    (hguard : stockAmount < currentAmountOf s.cart pid + 1) :
    addProduct env s pid = (s, [msgOutOfStock]) := by
  rcases hfind : s.cart.find? (fun q => q.id == pid) with _ | p
  · simp only [currentAmountOf, hfind] at hguard
    have hg2 : stockAmount < 1 := by omega
    simp [addProduct, hstock, hfind, hg2]
  · simp only [currentAmountOf, hfind] at hguard
    simp [addProduct, hstock, hfind, hguard]

theorem addProduct_present_store (env : Env) (s : AppState)
    (pid stockAmount : Int) (p : CartItem)
    (hstock : env.stockOf pid = some stockAmount)
    (hfind : s.cart.find? (fun q => q.id == pid) = some p)
    (hle : ¬ stockAmount < p.amount + 1) (hok : env.storageOk = true) :
    addProduct env s pid =
      ({ cart := setAmountFirst s.cart pid (p.amount + 1),
         storage := some (encodeCart (setAmountFirst s.cart pid (p.amount + 1))) },
       []) := by
  simp [addProduct, hstock, hfind, hle, hok]

theorem addProduct_present_nostore (env : Env) (s : AppState)
    (pid stockAmount : Int) (p : CartItem)
    (hstock : env.stockOf pid = some stockAmount)
    (hfind : s.cart.find? (fun q => q.id == pid) = some p)
    (hle : ¬ stockAmount < p.amount + 1) (hok : env.storageOk = false) :
    addProduct env s pid =
      ({ cart := setAmountFirst s.cart pid (p.amount + 1),
         storage := s.storage }, [msgAddError]) := by
  simp [addProduct, hstock, hfind, hle, hok]

theorem addProduct_absent_catalog_fail (env : Env) (s : AppState)
    (pid stockAmount : Int)
    (hstock : env.stockOf pid = some stockAmount)
    (hfind : s.cart.find? (fun q => q.id == pid) = none)
    (hle : ¬ stockAmount < 0 + 1) (hprod : env.productOf pid = none) :
    addProduct env s pid = (s, [msgAddError]) := by
  have hle2 : ¬ stockAmount < 1 := by omega
  simp [addProduct, hstock, hfind, hle2, hprod]

theorem addProduct_absent_store (env : Env) (s : AppState)
    (pid stockAmount : Int) (prod : CartItem)
    (hstock : env.stockOf pid = some stockAmount)
    (hfind : s.cart.find? (fun q => q.id == pid) = none)
    (hle : ¬ stockAmount < 0 + 1) (hprod : env.productOf pid = some prod)
    (hok : env.storageOk = true) :
    addProduct env s pid =
      ({ cart := s.cart ++ [{ prod with amount := 1 }],
         storage := some (encodeCart (s.cart ++ [{ prod with amount := 1 }])) },
       []) := by
  have hle2 : ¬ stockAmount < 1 := by omega
  simp [addProduct, hstock, hfind, hle2, hprod, hok]

theorem addProduct_absent_nostore (env : Env) (s : AppState)
    (pid stockAmount : Int) (prod : CartItem)
    (hstock : env.stockOf pid = some stockAmount)
    (hfind : s.cart.find? (fun q => q.id == pid) = none)
    (hle : ¬ stockAmount < 0 + 1) (hprod : env.productOf pid = some prod)
    (hok : env.storageOk = false) :
    addProduct env s pid =
      ({ cart := s.cart ++ [{ prod with amount := 1 }],
         storage := s.storage }, [msgAddError]) := by
  have hle2 : ¬ stockAmount < 1 := by omega
  simp [addProduct, hstock, hfind, hle2, hprod, hok]

theorem removeProduct_found_store (ok : Bool) (s : AppState) (pid : Int)
    (i : Nat) (hidx : s.cart.findIdx? (fun q => q.id == pid) = some i)
    (hok : ok = true) :
    removeProduct ok s pid =
      ({ cart := s.cart.eraseIdx i,
         storage := some (encodeCart (s.cart.eraseIdx i)) }, []) := by
  simp [removeProduct, hidx, hok]

theorem removeProduct_found_nostore (ok : Bool) (s : AppState) (pid : Int)
    (i : Nat) (hidx : s.cart.findIdx? (fun q => q.id == pid) = some i)
    (hok : ok = false) :
    removeProduct ok s pid =
      ({ cart := s.cart.eraseIdx i, storage := s.storage },
       [msgRemoveError]) := by
  simp [removeProduct, hidx, hok]

theorem removeProduct_notfound (ok : Bool) (s : AppState) (pid : Int)
    (hidx : s.cart.findIdx? (fun q => q.id == pid) = none) :
    removeProduct ok s pid = (s, [msgRemoveError]) := by
  simp [removeProduct, hidx]

theorem updateProductAmount_nonpos (env : Env) (s : AppState)
    (pid a : Int) (h : a ≤ 0) :
    updateProductAmount env s pid a = (s, []) := by
  simp [updateProductAmount, h]

theorem updateProductAmount_stock_fail (env : Env) (s : AppState)
    (pid a : Int) (hpos : ¬ a ≤ 0) (hstock : env.stockOf pid = none) :
    updateProductAmount env s pid a = (s, [msgUpdateError]) := by
  simp [updateProductAmount, hpos, hstock]

theorem updateProductAmount_guard (env : Env) (s : AppState)
    (pid a stockAmount : Int) (hpos : ¬ a ≤ 0)
    (hstock : env.stockOf pid = some stockAmount)
    (hguard : stockAmount < a) :
    updateProductAmount env s pid a = (s, [msgOutOfStock]) := by
  simp [updateProductAmount, hpos, hstock, hguard]

theorem updateProductAmount_found_store (env : Env) (s : AppState)
    (pid a stockAmount : Int) (p : CartItem) (hpos : ¬ a ≤ 0)
    (hstock : env.stockOf pid = some stockAmount)
    (hguard : ¬ stockAmount < a)
    (hfind : s.cart.find? (fun q => q.id == pid) = some p)
    (hok : env.storageOk = true) :
    updateProductAmount env s pid a =
      ({ cart := setAmountFirst s.cart pid a,
         storage := some (encodeCart (setAmountFirst s.cart pid a)) }, []) := by
  simp [updateProductAmount, hpos, hstock, hguard, hfind, hok]

theorem updateProductAmount_found_nostore (env : Env) (s : AppState)
    (pid a stockAmount : Int) (p : CartItem) (hpos : ¬ a ≤ 0)
    (hstock : env.stockOf pid = some stockAmount)
    (hguard : ¬ stockAmount < a)
    (hfind : s.cart.find? (fun q => q.id == pid) = some p)
    (hok : env.storageOk = false) :
    updateProductAmount env s pid a =
      ({ cart := setAmountFirst s.cart pid a, storage := s.storage },
       [msgUpdateError]) := by
  simp [updateProductAmount, hpos, hstock, hguard, hfind, hok]

theorem updateProductAmount_notfound (env : Env) (s : AppState)
    (pid a stockAmount : Int) (hpos : ¬ a ≤ 0)
    (hstock : env.stockOf pid = some stockAmount)
    (hguard : ¬ stockAmount < a)
    (hfind : s.cart.find? (fun q => q.id == pid) = none) :
    updateProductAmount env s pid a = (s, [msgUpdateError]) := by
  simp [updateProductAmount, hpos, hstock, hguard, hfind]

/-! Preservation of the cart invariant by each operation. -/

theorem CartInv_setAmountFirst (cart : List CartItem) (pid a : Int)
    (h : CartInv cart) (ha : 1 ≤ a) : CartInv (setAmountFirst cart pid a) :=
  ⟨setAmountFirst_amount_le cart pid a h.1 ha, by
    rw [setAmountFirst_map_id]
    exact h.2⟩

theorem CartInv_append_new (cart : List CartItem) (prod : CartItem) (pid : Int)
    (h : CartInv cart) (hid : prod.id = pid)
    (habsent : ∀ q ∈ cart, q.id ≠ pid) :
    CartInv (cart ++ [{ prod with amount := 1 }]) := by
  constructor
  · intro q hq
    rcases List.mem_append.mp hq with hq | hq
    · exact h.1 q hq
    · simp at hq
      subst hq
      norm_num
  · rw [List.map_append, List.nodup_append]
    refine ⟨h.2, by simp, ?_⟩
    intro x hx hx2
    simp at hx2
    rcases List.mem_map.mp hx with ⟨q, hq, rfl⟩
    exact habsent q hq (by rw [hx2, hid])

theorem CartInv_eraseIdx (cart : List CartItem) (i : Nat) (h : CartInv cart) :
    CartInv (cart.eraseIdx i) := by
  have hsub := List.eraseIdx_sublist cart i
  exact ⟨fun q hq => h.1 q (hsub.subset hq),
    List.Nodup.sublist (List.Sublist.map CartItem.id hsub) h.2⟩

theorem CartInv_addProduct (env : Env) (s : AppState) (pid : Int)
    (henv : EnvCatalogIds env) (h : CartInv s.cart) :
    CartInv (addProduct env s pid).1.cart := by
  rcases hstock : env.stockOf pid with _ | stockAmount
  · rw [addProduct_stock_fail env s pid hstock]
    exact h
  · rcases hfind : s.cart.find? (fun q => q.id == pid) with _ | p
    · by_cases hguard : stockAmount < 0 + 1
      · rw [addProduct_guard env s pid stockAmount hstock
          (by simp [currentAmountOf, hfind]; omega)]
        exact h
      · rcases hprod : env.productOf pid with _ | prod
        · rw [addProduct_absent_catalog_fail env s pid stockAmount hstock
            hfind hguard hprod]
          exact h
        · have habsent : ∀ q ∈ s.cart, q.id ≠ pid := by
            intro q hq
            have hne := List.find?_eq_none.mp hfind q hq
            simpa using hne
          have hnew := CartInv_append_new s.cart prod pid h
            (henv pid prod hprod) habsent
          rcases hok : env.storageOk with _ | _
          · rw [addProduct_absent_nostore env s pid stockAmount prod hstock
              hfind hguard hprod hok]
            exact hnew
          · rw [addProduct_absent_store env s pid stockAmount prod hstock
              hfind hguard hprod hok]
            exact hnew
    · have hmem := List.mem_of_find?_eq_some hfind
      have hamount := h.1 p hmem
      by_cases hguard : stockAmount < p.amount + 1
      · rw [addProduct_guard env s pid stockAmount hstock
          (by simp [currentAmountOf, hfind]; omega)]
        exact h
      · have hset := CartInv_setAmountFirst s.cart pid (p.amount + 1) h (by omega)
        rcases hok : env.storageOk with _ | _
        · rw [addProduct_present_nostore env s pid stockAmount p hstock
            hfind hguard hok]
          exact hset
        · rw [addProduct_present_store env s pid stockAmount p hstock
            hfind hguard hok]
          exact hset

theorem CartInv_removeProduct (ok : Bool) (s : AppState) (pid : Int)
    (h : CartInv s.cart) : CartInv (removeProduct ok s pid).1.cart := by
  rcases hidx : s.cart.findIdx? (fun q => q.id == pid) with _ | i
  · rw [removeProduct_notfound ok s pid hidx]
    exact h
  · have herase := CartInv_eraseIdx s.cart i h
    rcases hok : ok with _ | _
    · rw [removeProduct_found_nostore false s pid i hidx rfl]
      exact herase
    · rw [removeProduct_found_store true s pid i hidx rfl]
      exact herase

theorem CartInv_updateProductAmount (env : Env) (s : AppState) (pid a : Int)
    (h : CartInv s.cart) : CartInv (updateProductAmount env s pid a).1.cart := by
  by_cases hpos : a ≤ 0
  · rw [updateProductAmount_nonpos env s pid a hpos]
    exact h
  · rcases hstock : env.stockOf pid with _ | stockAmount
    · rw [updateProductAmount_stock_fail env s pid a hpos hstock]
      exact h
    · by_cases hguard : stockAmount < a
      · rw [updateProductAmount_guard env s pid a stockAmount hpos hstock hguard]
        exact h
      · rcases hfind : s.cart.find? (fun q => q.id == pid) with _ | p
        · rw [updateProductAmount_notfound env s pid a stockAmount hpos hstock
            hguard hfind]
          exact h
        · have hset := CartInv_setAmountFirst s.cart pid a h (by omega)
          rcases hok : env.storageOk with _ | _
          · rw [updateProductAmount_found_nostore env s pid a stockAmount p
              hpos hstock hguard hfind hok]
            exact hset
          · rw [updateProductAmount_found_store env s pid a stockAmount p
              hpos hstock hguard hfind hok]
            exact hset

theorem CartInv_applyOp (s : AppState) (op : Op) (hwf : OpWf op)
    (h : CartInv s.cart) : CartInv (applyOp s op).cart := by
  cases op with
  | add env pid => exact CartInv_addProduct env s pid hwf h
  | remove ok pid => exact CartInv_removeProduct ok s pid h
  | update env pid a => exact CartInv_updateProductAmount env s pid a h

/-! Concrete worlds and states used to witness the theorems below. -/

/-- A well-behaved world: five units of stock for everything, a catalog
answering with the requested id (and a stray `amount` field of 7 in the
metadata), a working storage. -/
def envOk : Env :=
  { stockOf := fun _ => some 5,
    productOf := fun productId =>
      some { id := productId, title := "Tenis", price := 100,
             image := "img", amount := 7 },
    storageOk := true }

/-- A world whose stock endpoint rejects every request. -/
def envNoStock : Env :=
  { stockOf := fun _ => none,
    productOf := fun _ => none,
    storageOk := true }

/-- A world with a single unit of stock for every product. -/
def envLow : Env :=
  { stockOf := fun _ => some 1,
    productOf := fun productId =>
      some { id := productId, title := "Tenis", price := 100,
             image := "img", amount := 7 },
    storageOk := true }

/-- A world where the storage write throws (e.g. quota exceeded). -/
def envBadStore : Env :=
  { stockOf := fun _ => some 5,
    productOf := fun productId =>
      some { id := productId, title := "Tenis", price := 100,
             image := "img", amount := 7 },
    storageOk := false }

/-- The catalog of `envOk` returns matching ids. -/
theorem envOk_catalog : EnvCatalogIds envOk := by
  intro productId p h
  simp only [envOk] at h
  injection h with h
  rw [← h]

/-- A sample cart line. -/
def item1 : CartItem :=
  { id := 1, title := "Tenis", price := 100, image := "img", amount := 1 }

/-- The empty initial state: empty cart, no stored value. -/
def state0 : AppState := { cart := [], storage := none }

/-- A one-item state whose storage mirrors the cart. -/
def state1 : AppState :=
  { cart := [item1], storage := some (encodeCart [item1]) }

/-! The claims. -/

/-- C1: every cart state reachable by addProduct, removeProduct and
updateProductAmount calls from a state whose cart satisfies the data
model invariant (the empty initial cart does, and so does a cart loaded
from a value the provider itself persisted for an invariant-satisfying
cart) keeps every amount at least 1 and all product ids distinct.  The
catalog collaborator is assumed to answer a product request with that
product's metadata (`OpWf`). -/
theorem reachable_states_satisfy_CartInv (s : AppState) (ops : List Op)
    (hinv : CartInv s.cart) (hwf : ∀ op ∈ ops, OpWf op) :
    CartInv (runOps s ops).cart := by
  induction ops generalizing s with
  | nil => exact hinv
  | cons op rest ih =>
    exact ih (applyOp s op)
      (CartInv_applyOp s op (hwf op (by simp)) hinv)
      (fun o ho => hwf o (List.mem_cons_of_mem _ ho))

/-- Witness for C1: a concrete four-step trace from the empty state. -/
theorem reachable_states_satisfy_CartInv_witness :
    CartInv (runOps state0 [Op.add envOk 1, Op.update envOk 1 3,
      Op.add envOk 2, Op.remove true 1]).cart :=
  reachable_states_satisfy_CartInv state0 _ (by decide) (by
    intro op hop
    simp only [List.mem_cons, List.not_mem_nil, or_false] at hop
    rcases hop with rfl | rfl | rfl | rfl
    · exact envOk_catalog
    · trivial
    · exact envOk_catalog
    · trivial)

/-- C3: when the desired amount `currentAmount + 1` exceeds the fetched
stock, addProduct emits the out-of-stock toast and returns the state —
in-memory cart and storage — unchanged: the guard runs before any
mutation. -/
theorem addProduct_out_of_stock (env : Env) (s : AppState)
    (pid stockAmount : Int) (hstock : env.stockOf pid = some stockAmount)
    (hguard : stockAmount < currentAmountOf s.cart pid + 1) :
    addProduct env s pid = (s, [msgOutOfStock]) :=
  addProduct_guard env s pid stockAmount hstock hguard

/-- Witness for C3: scenario B — one unit in the cart, one in stock. -/
theorem addProduct_out_of_stock_witness :
    addProduct envLow state1 1 = (state1, [msgOutOfStock]) :=
  addProduct_out_of_stock envLow state1 1 1 rfl (by decide)

/-- C7: a non-positive requested amount makes updateProductAmount a
silent no-op: no toast, state untouched, and the stock service and the
storage are never consulted — the result is identical in any two
worlds. -/
theorem updateProductAmount_nonpos_noop (env env2 : Env) (s : AppState)
    (pid a : Int) (h : a ≤ 0) :
    updateProductAmount env s pid a = (s, []) ∧
      updateProductAmount env s pid a = updateProductAmount env2 s pid a := by
  constructor
  · exact updateProductAmount_nonpos env s pid a h
  · rw [updateProductAmount_nonpos env s pid a h,
      updateProductAmount_nonpos env2 s pid a h]

/-- Witness for C7: scenario D. -/
theorem updateProductAmount_nonpos_noop_witness :
    updateProductAmount envOk state1 1 0 = (state1, []) ∧
      updateProductAmount envOk state1 1 0 =
        updateProductAmount envNoStock state1 1 0 :=
  updateProductAmount_nonpos_noop envOk envNoStock state1 1 0 (by decide)

/-- C9: persisting a cart (the value written after each mutation) and
reloading it through the provider's initialization path reconstructs an
equal cart: same ids, amounts and metadata. -/
theorem storage_roundtrip (cart : List CartItem) :
    initialCart (some (encodeCart cart)) = some cart :=
  decodeCart_encodeCart cart

/-- C4: when the desired amount fits the stock and the storage write
succeeds, addProduct increments the amount of an already-present item in
place — its other fields and every other item untouched, order kept — or
appends the catalog product with amount 1 at the end, and persists the
full updated cart. -/
theorem addProduct_success (env : Env) (s : AppState)
    (pid stockAmount : Int) (hstock : env.stockOf pid = some stockAmount)
    (hle : currentAmountOf s.cart pid + 1 ≤ stockAmount)
    (hok : env.storageOk = true) :
    (∀ l1 p l2, s.cart = l1 ++ p :: l2 → (∀ q ∈ l1, q.id ≠ pid) →
      p.id = pid →
      addProduct env s pid =
        ({ cart := l1 ++ { p with amount := p.amount + 1 } :: l2,
           storage :=
             some (encodeCart (l1 ++ { p with amount := p.amount + 1 } :: l2)) },
         [])) ∧
    (∀ prod, (∀ q ∈ s.cart, q.id ≠ pid) → env.productOf pid = some prod →
      addProduct env s pid =
        ({ cart := s.cart ++ [{ prod with amount := 1 }],
           storage :=
             some (encodeCart (s.cart ++ [{ prod with amount := 1 }])) },
         [])) := by
  constructor
  · intro l1 p l2 hcart hl1 hp
    have hfind : s.cart.find? (fun q => q.id == pid) = some p := by
      rw [hcart]
      exact find?_id_append l1 p l2 pid hl1 hp
    have hcur : currentAmountOf s.cart pid = p.amount := by
      rw [currentAmountOf, hfind]
    rw [hcur] at hle
    rw [addProduct_present_store env s pid stockAmount p hstock hfind
      (by omega) hok]
    rw [hcart, setAmountFirst_append l1 p l2 pid (p.amount + 1) hl1 hp]
  · intro prod habsent hprod
    have hfind := find?_id_eq_none s.cart pid habsent
    have hcur : currentAmountOf s.cart pid = 0 := by
      rw [currentAmountOf, hfind]
    rw [hcur] at hle
    exact addProduct_absent_store env s pid stockAmount prod hstock hfind
      (by omega) hprod hok

/-- Witness for C4: scenario A — empty cart, five units of stock. -/
theorem addProduct_success_witness :
    addProduct envOk state0 1 =
      ({ cart := [⟨1, "Tenis", 100, "img", 1⟩],
         storage := some (encodeCart [⟨1, "Tenis", 100, "img", 1⟩]) }, []) :=
  (addProduct_success envOk state0 1 5 rfl (by decide) rfl).2
    ⟨1, "Tenis", 100, "img", 7⟩ (by decide) rfl

/-- C5: for a positive requested amount, updateProductAmount aborts with
the out-of-stock toast and no mutation when the amount exceeds the
fetched stock; otherwise it sets the amount of the item carrying the id
and persists the cart, or — when no item carries the id — emits the
generic update-failure toast and mutates nothing. -/
theorem updateProductAmount_behavior (env : Env) (s : AppState)
    (pid a stockAmount : Int) (hpos : 0 < a)
    (hstock : env.stockOf pid = some stockAmount) :
    (stockAmount < a →
      updateProductAmount env s pid a = (s, [msgOutOfStock])) ∧
    (¬ stockAmount < a → env.storageOk = true →
      ∀ l1 p l2, s.cart = l1 ++ p :: l2 → (∀ q ∈ l1, q.id ≠ pid) →
        p.id = pid →
        updateProductAmount env s pid a =
          ({ cart := l1 ++ { p with amount := a } :: l2,
             storage :=
               some (encodeCart (l1 ++ { p with amount := a } :: l2)) },
           [])) ∧
    (¬ stockAmount < a → (∀ q ∈ s.cart, q.id ≠ pid) →
      updateProductAmount env s pid a = (s, [msgUpdateError])) := by
  have hpos2 : ¬ a ≤ 0 := by omega
  refine ⟨fun hguard => updateProductAmount_guard env s pid a stockAmount
    hpos2 hstock hguard, ?_, ?_⟩
  · intro hguard hok l1 p l2 hcart hl1 hp
    have hfind : s.cart.find? (fun q => q.id == pid) = some p := by
      rw [hcart]
      exact find?_id_append l1 p l2 pid hl1 hp
    rw [updateProductAmount_found_store env s pid a stockAmount p hpos2
      hstock hguard hfind hok]
    rw [hcart, setAmountFirst_append l1 p l2 pid a hl1 hp]
  · intro hguard habsent
    exact updateProductAmount_notfound env s pid a stockAmount hpos2 hstock
      hguard (find?_id_eq_none s.cart pid habsent)

/-- Witness for C5: scenario F — amount 3, stock 5: the item is updated
and persisted. -/
theorem updateProductAmount_behavior_witness :
    updateProductAmount envOk state1 1 3 =
      ({ cart := [⟨1, "Tenis", 100, "img", 3⟩],
         storage := some (encodeCart [⟨1, "Tenis", 100, "img", 3⟩]) }, []) :=
  (updateProductAmount_behavior envOk state1 1 3 5 (by decide) rfl).2.1
    (by decide) rfl [] item1 [] rfl (by decide) rfl

/-- C6: removeProduct removes exactly the item carrying the id — the
other items unchanged and in their original order — and persists the
shrunk cart; when no item carries the id it emits the generic
removal-failure toast and leaves cart and storage untouched. -/
theorem removeProduct_behavior (ok : Bool) (s : AppState) (pid : Int) :
    (∀ l1 p l2, s.cart = l1 ++ p :: l2 → (∀ q ∈ l1, q.id ≠ pid) →
      p.id = pid → ok = true →
      removeProduct ok s pid =
        ({ cart := l1 ++ l2, storage := some (encodeCart (l1 ++ l2)) },
         [])) ∧
    ((∀ q ∈ s.cart, q.id ≠ pid) →
      removeProduct ok s pid = (s, [msgRemoveError])) := by
  constructor
  · intro l1 p l2 hcart hl1 hp hok
    have hidx : s.cart.findIdx? (fun q => q.id == pid) = some l1.length := by
      rw [hcart]
      simpa using findIdx?_id_append l1 p l2 pid hl1 hp 0
    rw [removeProduct_found_store ok s pid l1.length hidx hok]
    rw [hcart, eraseIdx_append_length l1 p l2]
  · intro habsent
    exact removeProduct_notfound ok s pid
      (findIdx?_id_eq_none s.cart pid habsent)

/-- Witness for C6: scenario C — removing the only item empties the cart
and persists the empty cart. -/
theorem removeProduct_behavior_witness :
    removeProduct true state1 1 =
      ({ cart := [], storage := some (encodeCart []) }, []) :=
  (removeProduct_behavior true state1 1).1 [] item1 [] rfl (by decide)
    rfl rfl

/-- C10: the item appended for a product not yet in the cart is the
catalog response with its amount field overridden to 1: even when the
response itself carries an `amount` (arbitrary here), the spread
`{...product.data, amount: 1}` wins, whatever the storage outcome. -/
theorem addProduct_appends_amount_one (env : Env) (s : AppState)
    (pid stockAmount : Int) (prod : CartItem)
    (hstock : env.stockOf pid = some stockAmount) (hone : 1 ≤ stockAmount)
    (habsent : ∀ q ∈ s.cart, q.id ≠ pid)
    (hprod : env.productOf pid = some prod) :
    (addProduct env s pid).1.cart =
      s.cart ++ [{ id := prod.id, title := prod.title, price := prod.price,
                   image := prod.image, amount := 1 }] := by
  have hfind := find?_id_eq_none s.cart pid habsent
  have hle : ¬ stockAmount < 0 + 1 := by omega
  rcases hok : env.storageOk with _ | _
  · rw [addProduct_absent_nostore env s pid stockAmount prod hstock hfind
      hle hprod hok]
  · rw [addProduct_absent_store env s pid stockAmount prod hstock hfind
      hle hprod hok]

/-- Witness for C10: the catalog metadata carries amount 7, the appended
item still has amount 1. -/
theorem addProduct_appends_amount_one_witness :
    (addProduct envOk state0 3).1.cart = [⟨3, "Tenis", 100, "img", 1⟩] :=
  addProduct_appends_amount_one envOk state0 3 5
    ⟨3, "Tenis", 100, "img", 7⟩ rfl (by decide) (by decide) rfl

/-- C8: updating an item to its current amount is observationally a
no-op: whatever the stock service answers (any amount, or a rejection)
and whether or not the storage write succeeds, the resulting state —
cart and stored value, the latter assumed in sync with the cart as every
successful mutation leaves it — equals the pre-call state.  Uniqueness
of ids (the data-model invariant) pins the located item down. -/
theorem updateProductAmount_idempotent (env : Env) (s : AppState)
    (pid : Int) (p : CartItem) (hmem : p ∈ s.cart) (hid : p.id = pid)
    (hnd : (s.cart.map CartItem.id).Nodup)
    (hsync : s.storage = some (encodeCart s.cart)) :
    (updateProductAmount env s pid p.amount).1 = s := by
  subst hid
  have hfind : s.cart.find? (fun q => q.id == p.id) = some p :=
    find?_id_of_nodup_mem s.cart p hnd hmem
  have hself : setAmountFirst s.cart p.id p.amount = s.cart :=
    setAmountFirst_self s.cart p.id p hfind
  by_cases ha : p.amount ≤ 0
  · rw [updateProductAmount_nonpos env s p.id p.amount ha]
  · rcases hstock : env.stockOf p.id with _ | stockAmount
    · rw [updateProductAmount_stock_fail env s p.id p.amount ha hstock]
    · by_cases hguard : stockAmount < p.amount
      · rw [updateProductAmount_guard env s p.id p.amount stockAmount ha
          hstock hguard]
      · rcases hok : env.storageOk with _ | _
        · rw [updateProductAmount_found_nostore env s p.id p.amount
            stockAmount p ha hstock hguard hfind hok]
          refine AppState.ext ?_ ?_
          · exact hself
          · rfl
        · rw [updateProductAmount_found_store env s p.id p.amount
            stockAmount p ha hstock hguard hfind hok]
          refine AppState.ext ?_ ?_
          · exact hself
          · rw [hsync, hself]

/-- Witness for C8: a one-item cart in sync with storage, a stock
service reporting a single unit: the call leaves the state equal. -/
theorem updateProductAmount_idempotent_witness :
    (updateProductAmount envLow state1 1 item1.amount).1 = state1 :=
  updateProductAmount_idempotent envLow state1 1 item1 (by decide) rfl
    (by decide) rfl

/-- C2 counterexample: in a world where only the storage write throws,
addProduct on the empty cart emits the generic failure toast — an
unexpected error did occur — yet the in-memory cart does not equal its
pre-operation value: it keeps the freshly appended product, because
`setCart` runs before the throwing `localStorage.setItem`. -/
theorem addProduct_storage_failure_keeps_mutation :
    (addProduct envBadStore state0 1).2 = [msgAddError] ∧
      (addProduct envBadStore state0 1).1.cart ≠ state0.cart := by
  constructor
  · rfl
  · decide

/-- C2 (amended): every failing step of addProduct is caught and
reported through the generic failure toast.  A failing stock fetch or a
failing catalog fetch leaves cart and storage at their pre-operation
values; a failing storage write always leaves the stored value
untouched, but the in-memory cart then keeps the already-applied update
(both in the increment case and in the append case), since the write
runs only after `setCart`. -/
theorem addProduct_failure_modes (env : Env) (s : AppState) (pid : Int) :
    (env.stockOf pid = none → addProduct env s pid = (s, [msgAddError])) ∧
    (∀ stockAmount, env.stockOf pid = some stockAmount →
      (∀ q ∈ s.cart, q.id ≠ pid) → ¬ stockAmount < 0 + 1 →
      env.productOf pid = none →
      addProduct env s pid = (s, [msgAddError])) ∧
    (env.storageOk = false →
      (addProduct env s pid).1.storage = s.storage) ∧
    (env.storageOk = false → ∀ stockAmount,
      env.stockOf pid = some stockAmount →
      ∀ l1 p l2, s.cart = l1 ++ p :: l2 → (∀ q ∈ l1, q.id ≠ pid) →
      p.id = pid → ¬ stockAmount < p.amount + 1 →
      addProduct env s pid =
        ({ cart := l1 ++ { p with amount := p.amount + 1 } :: l2,
           storage := s.storage }, [msgAddError])) ∧
    (env.storageOk = false → ∀ stockAmount prod,
      env.stockOf pid = some stockAmount → (∀ q ∈ s.cart, q.id ≠ pid) →
      ¬ stockAmount < 0 + 1 → env.productOf pid = some prod →
      addProduct env s pid =
        ({ cart := s.cart ++ [{ prod with amount := 1 }],
           storage := s.storage }, [msgAddError])) := by
  refine ⟨fun h => addProduct_stock_fail env s pid h, ?_, ?_, ?_, ?_⟩
  · intro stockAmount hstock habsent hle hprod
    exact addProduct_absent_catalog_fail env s pid stockAmount hstock
      (find?_id_eq_none s.cart pid habsent) hle hprod
  · intro hok
    rcases hstock : env.stockOf pid with _ | stockAmount
    · rw [addProduct_stock_fail env s pid hstock]
    · rcases hfind : s.cart.find? (fun q => q.id == pid) with _ | p
      · by_cases hguard : stockAmount < 0 + 1
        · rw [addProduct_guard env s pid stockAmount hstock
            (by simp [currentAmountOf, hfind]; omega)]
        · rcases hprod : env.productOf pid with _ | prod
          · rw [addProduct_absent_catalog_fail env s pid stockAmount hstock
              hfind hguard hprod]
          · rw [addProduct_absent_nostore env s pid stockAmount prod hstock
              hfind hguard hprod hok]
      · by_cases hguard : stockAmount < p.amount + 1
        · rw [addProduct_guard env s pid stockAmount hstock
            (by simp [currentAmountOf, hfind]; omega)]
        · rw [addProduct_present_nostore env s pid stockAmount p hstock
            hfind hguard hok]
  · intro hok stockAmount hstock l1 p l2 hcart hl1 hp hguard
    have hfind : s.cart.find? (fun q => q.id == pid) = some p := by
      rw [hcart]
      exact find?_id_append l1 p l2 pid hl1 hp
    rw [addProduct_present_nostore env s pid stockAmount p hstock hfind
      hguard hok]
    rw [hcart, setAmountFirst_append l1 p l2 pid (p.amount + 1) hl1 hp]
  · intro hok stockAmount prod hstock habsent hle hprod
    exact addProduct_absent_nostore env s pid stockAmount prod hstock
      (find?_id_eq_none s.cart pid habsent) hle hprod hok

/-- Witness for C2 (amended): a rejected stock fetch reports the generic
toast and changes nothing. -/
theorem addProduct_failure_modes_witness :
    addProduct envNoStock state0 1 = (state0, [msgAddError]) :=
  (addProduct_failure_modes envNoStock state0 1).1 rfl
